import Mathlib

/-!
Verification of the rowguard RLS policy DSL (condition model, SQL rendering,
policy assembly, subquery validation and index extraction) against its
natural-language specification.  Definitions are shallow embeddings of the
TypeScript sources (src/sql.ts, src/policy-builder.ts, src/column.ts,
src/subquery-builder.ts); theorems settle the spec claims.
-/

namespace Rowguard

/-! ## Characters and identifier classes (sql.ts regexes) -/

/-- Membership in the character class `[a-zA-Z0-9_]` used by the
`escapeIdentifier` regex in sql.ts. -/
def isIdentChar (c : Char) : Bool :=
  (('a' ≤ c && c ≤ 'z') || ('A' ≤ c && c ≤ 'Z') || ('0' ≤ c && c ≤ '9') || c = '_')

/-- Membership in the character class `[a-z0-9_]` used by the sanitizer
regex in sql.ts (applied after lower-casing). -/
def isSanChar (c : Char) : Bool :=
  (('a' ≤ c && c ≤ 'z') || ('0' ≤ c && c ≤ '9') || c = '_')

/-- Membership in `[0-9]`, the leading-digit test of the sanitizer. -/
def isDigitChar (c : Char) : Bool := ('0' ≤ c && c ≤ '9')

/-- Replacement of every `"` by `""`, as in
`identifier.replace(/"/g, String.fromCharCode(34,34))` inside `escapeIdentifier`. -/
def doubleQuotes (s : String) : String :=
  String.mk (s.data.flatMap (fun c => if c = '"' then ['"', '"'] else [c]))

/-- Replacement of every single quote by two single quotes, as in the
string branch of `escapeValue`. -/
def doubleSingleQuotes (s : String) : String :=
  String.mk (s.data.flatMap (fun c => if c = '\x27' then ['\x27', '\x27'] else [c]))

/-- Embedding of `escapeIdentifier` (sql.ts): if the identifier contains any
character outside `[a-zA-Z0-9_]`, wrap it in double quotes doubling embedded
double quotes; otherwise return it unchanged. -/
def escapeIdentifier (identifier : String) : String :=
  if identifier.data.any (fun c => !(isIdentChar c)) then
    "\"" ++ doubleQuotes identifier ++ "\""
  else
    identifier

/-! ## Values accepted by escapeValue (sql.ts)

The runtime value universe that `escapeValue` dispatches on.  A JS `Date`
carries its ISO-8601 rendering, an `SQLExpression` and a generic
`toSQL`-capable object (a `Condition` used as a value) carry their rendered
SQL text, and a `ContextValue` (a `type: "context"` object such as
`auth.uid()`) carries its rendered text as well; numbers are modelled by
integers rendered in decimal, matching `String(value)` on integral values. -/

inductive Value where
  | vNull : Value
  | vBool (b : Bool) : Value
  | vNum (n : Int) : Value
  | vDate (iso : String) : Value
  | vStr (s : String) : Value
  | vArr (elems : List Value) : Value
  | vExpr (rendered : String) : Value
  | vContext (rendered : String) : Value
  | vCond (rendered : String) : Value

mutual

/-- Embedding of `escapeValue` (sql.ts).  Each constructor of `Value` hits
exactly one branch of the source dispatch chain (null, boolean, number,
Date, SQLExpression, Array, string, object-with-toSQL). -/
def escapeValue : Value → String
  | .vNull => "NULL"
  | .vBool b => if b then "TRUE" else "FALSE"
  | .vNum n => toString n
  | .vDate iso => "\x27" ++ iso ++ "\x27::TIMESTAMP"
  | .vStr s => "\x27" ++ doubleSingleQuotes s ++ "\x27"
  | .vArr elems => "ARRAY[" ++ String.intercalate ", " (escapeValueList elems) ++ "]"
  | .vExpr r => r
  | .vContext r => r
  | .vCond r => r

/-- Pointwise `escapeValue` over a list, the `value.map(...)` of the array
branch of `escapeValue`. -/
def escapeValueList : List Value → List String
  | [] => []
  | v :: vs => escapeValue v :: escapeValueList vs

end

/-! ## Policy name sanitization (sql.ts) -/

/-- Truncation of an integer to a signed 32-bit value, as JavaScript bitwise
operators do. -/
def toInt32 (x : Int) : Int :=
  let r := x % 4294967296
  if r < 2147483648 then r else r - 4294967296

/-- One step of `simpleHash` (sql.ts): `hash = ((hash << 5) - hash) + char`
followed by `hash = hash & hash`, both on 32-bit integers. -/
def hashStep (h : Int) (c : Char) : Int :=
  toInt32 (toInt32 (h * 32) - h + (c.toNat : Int))

/-- The 32-bit accumulator of `simpleHash` over the characters of the input. -/
def simpleHashInt (s : String) : Int :=
  s.data.foldl hashStep 0

/-- Embedding of `simpleHash` (sql.ts): the accumulated 32-bit hash, absolute
value, rendered in lowercase hexadecimal, first 6 characters. -/
def simpleHash (s : String) : String :=
  String.mk ((Nat.toDigits 16 (simpleHashInt s).natAbs).take 6)

/-- Collapse of every run of underscores to a single underscore, as in
`sanitized.replace(/_+/g, String.fromCharCode(95))`. -/
def collapseUnderscores : List Char → List Char
  | [] => []
  | [c] => [c]
  | c1 :: c2 :: rest =>
    if c1 = '_' && c2 = '_' then collapseUnderscores (c2 :: rest)
    else c1 :: collapseUnderscores (c2 :: rest)

/-- Removal of leading and trailing underscores, as in
`sanitized.replace(..., empty)` with the anchored underscore-run regex. -/
def stripUnderscores (l : List Char) : List Char :=
  ((l.dropWhile (fun c => c = '_')).reverse.dropWhile (fun c => c = '_')).reverse

/-- The maximum identifier length constant `POSTGRES_MAX_IDENTIFIER_LENGTH`. -/
def postgresMaxIdentifierLength : Nat := 63

/-- Core transformation chain of `sanitizePolicyName` (sql.ts): lower-case,
replace every character outside `[a-z0-9_]` by an underscore, collapse runs
of underscores, strip leading and trailing underscores, and prefix an
underscore when the result starts with a digit. -/
def sanitizeCore (name : String) : List Char :=
  let s1 := name.data.map Char.toLower
  let s2 := s1.map (fun c => if isSanChar c then c else '_')
  let s3 := collapseUnderscores s2
  let s4 := stripUnderscores s3
  match s4 with
  | c :: _ => if isDigitChar c then '_' :: s4 else s4
  | [] => s4

/-- Embedding of `sanitizePolicyName` (sql.ts): reject empty or
whitespace-only input; apply the sanitizing chain; reject an empty result;
and when the result exceeds 63 characters, truncate and append an underscore
plus `simpleHash` of the original name. -/
def sanitizePolicyName (name : String) : Except String String :=
  if name.data.all (fun c => c.isWhitespace) then
    .error "Policy name cannot be empty"
  else
    let s5 := sanitizeCore name
    if s5.isEmpty then
      .error ("Policy name \"" ++ name ++ "\" results in an empty identifier after sanitization")
    else if s5.length > postgresMaxIdentifierLength then
      let hashSuffix := "_" ++ simpleHash name
      let maxBaseLength := postgresMaxIdentifierLength - hashSuffix.length
      .ok (String.mk (s5.take maxBaseLength) ++ hashSuffix)
    else
      .ok (String.mk s5)

/-! ## Condition node model (types.ts / column.ts)

The closed set of condition variants.  Each variant corresponds to one
constructor site in column.ts (ColumnBuilder methods, `hasRole`,
`alwaysTrue`) or sql.ts (`createComparison`), whose `toSQL` closure is
embedded in `Condition.toSQL` below.  Subquery definitions
(subquery-builder.ts `toSubquery` output) are mutually recursive with
conditions through join ON-conditions and WHERE conditions. -/

inductive ComparisonOperator where
  | eq | neq | gt | gte | lt | lte
deriving DecidableEq, Repr

/-- The `operatorMap` of `createComparison` (sql.ts). -/
def ComparisonOperator.symbol : ComparisonOperator → String
  | .eq => "="
  | .neq => "!="
  | .gt => ">"
  | .gte => ">="
  | .lt => "<"
  | .lte => "<="

inductive PatternOperator where
  | like | ilike
deriving DecidableEq, Repr

inductive LogicalOperator where
  | and | or
deriving DecidableEq, Repr

/-- Rendered text of a logical operator, the `operator` string joined between
children in the `chainWith` closure. -/
def LogicalOperator.str : LogicalOperator → String
  | .and => "AND"
  | .or => "OR"

inductive JoinType where
  | inner | left | right | full
deriving DecidableEq, Repr

/-- Uppercase join type, `(subquery.join.type || "inner").toUpperCase()` in
`subqueryToSQL`. -/
def JoinType.upper : JoinType → String
  | .inner => "INNER"
  | .left => "LEFT"
  | .right => "RIGHT"
  | .full => "FULL"

/-- Select list of a subquery: the `string | string[]` union of
`SubqueryDefinition.select`. -/
inductive SelectList where
  | one (column : String)
  | many (columns : List String)
deriving DecidableEq, Repr

mutual

inductive Condition where
  /-- ComparisonCondition built by `createComparison` (sql.ts). -/
  | comparison (column : String) (op : ComparisonOperator) (value : Value) : Condition
  /-- PatternCondition built by `ColumnBuilder.like` / `.ilike`. -/
  | pattern (column : String) (op : PatternOperator) (pat : String) : Condition
  /-- MembershipCondition with operator `in` over a literal array. -/
  | membershipIn (column : String) (values : List Value) : Condition
  /-- MembershipCondition with operator `in` over a subquery. -/
  | membershipInSub (column : String) (sub : SubqueryDef) : Condition
  /-- MembershipCondition with operator `contains` (`@>`). -/
  | membershipContains (column : String) (value : Value) : Condition
  /-- NullCondition built by `ColumnBuilder.isNull` / `.isNotNull`. -/
  | nullCheck (column : String) (isNull : Bool) : Condition
  /-- LogicalCondition built by `ConditionChain.chainWith`. -/
  | logical (op : LogicalOperator) (conditions : List Condition) : Condition
  /-- HelperCondition `isMemberOf` (ColumnBuilder.isMemberOf). -/
  | helperIsMemberOf (joinTable foreignKey localKey : String) : Condition
  /-- HelperCondition `hasRole` (column.ts `hasRole`). -/
  | helperHasRole (role userRolesTable : String) : Condition
  /-- HelperCondition `alwaysTrue` (column.ts `alwaysTrue`). -/
  | helperAlwaysTrue : Condition

inductive SubqueryDef where
  /-- SubqueryDefinition (types.ts): source table, optional alias, select
  list, optional single join, optional WHERE condition. -/
  | mk (fromTable : String) (tblAlias : Option String) (sel : SelectList)
       (join : Option JoinDef) (whereCond : Option Condition) : SubqueryDef

inductive JoinDef where
  /-- JoinDefinition (types.ts): joined table, optional alias, ON condition,
  optional join type (defaulting to inner at render time). -/
  | mk (table : String) (tblAlias : Option String) (onCond : Condition)
       (jtype : Option JoinType) : JoinDef

end

def SubqueryDef.fromTable : SubqueryDef → String
  | .mk f _ _ _ _ => f

def SubqueryDef.tblAlias : SubqueryDef → Option String
  | .mk _ a _ _ _ => a

def SubqueryDef.sel : SubqueryDef → SelectList
  | .mk _ _ s _ _ => s

def SubqueryDef.join : SubqueryDef → Option JoinDef
  | .mk _ _ _ j _ => j

def SubqueryDef.whereCond : SubqueryDef → Option Condition
  | .mk _ _ _ _ w => w

def JoinDef.table : JoinDef → String
  | .mk t _ _ _ => t

def JoinDef.tblAlias : JoinDef → Option String
  | .mk _ a _ _ => a

def JoinDef.onCond : JoinDef → Condition
  | .mk _ _ o _ => o

def JoinDef.jtype : JoinDef → Option JoinType
  | .mk _ _ _ j => j

/-- Rendered select list: `Array.isArray(subquery.select) ?
subquery.select.map(escapeIdentifier).join(", ") : escapeIdentifier(...)`. -/
def SelectList.render : SelectList → String
  | .one c => escapeIdentifier c
  | .many cs => String.intercalate ", " (cs.map escapeIdentifier)

mutual

/-- Embedding of the per-variant `toSQL` closures (column.ts constructor
sites, `createComparison` in sql.ts, and the `chainWith` logical node). -/
def Condition.toSQL : Condition → String
  | .comparison column op value =>
    escapeIdentifier column ++ " " ++ op.symbol ++ " " ++ escapeValue value
  | .pattern column op pat =>
    escapeIdentifier column ++ (match op with | .like => " LIKE " | .ilike => " ILIKE ")
      ++ escapeValue (.vStr pat)
  | .membershipIn column values =>
    escapeIdentifier column ++ " IN (" ++ String.intercalate ", " (escapeValueList values) ++ ")"
  | .membershipInSub column sub =>
    escapeIdentifier column ++ " IN " ++ subqueryToSQL sub
  | .membershipContains column value =>
    escapeIdentifier column ++ " @> " ++ escapeValue value
  | .nullCheck column isNull =>
    escapeIdentifier column ++ (if isNull then " IS NULL" else " IS NOT NULL")
  | .logical op conditions =>
    "(" ++ String.intercalate (" " ++ op.str ++ " ") (Condition.toSQLList conditions) ++ ")"
  | .helperIsMemberOf joinTable foreignKey localKey =>
    escapeIdentifier localKey ++ " IN (\n          SELECT " ++ escapeIdentifier foreignKey
      ++ "\n          FROM " ++ escapeIdentifier joinTable
      ++ "\n          WHERE " ++ escapeIdentifier "user_id" ++ " = auth.uid()\n        )"
  | .helperHasRole role userRolesTable =>
    "EXISTS (\n        SELECT 1\n        FROM " ++ escapeIdentifier userRolesTable
      ++ "\n        WHERE " ++ escapeIdentifier "user_id" ++ " = auth.uid()"
      ++ "\n        AND " ++ escapeIdentifier "role" ++ " = " ++ escapeValue (.vStr role)
      ++ "\n      )"
  | .helperAlwaysTrue => "true"

/-- Pointwise `toSQL` over logical children, the
`flattened.map((c) => c.toSQL())` of the `chainWith` closure. -/
def Condition.toSQLList : List Condition → List String
  | [] => []
  | c :: cs => c.toSQL :: Condition.toSQLList cs

/-- Embedding of `subqueryToSQL` (sql.ts). -/
def subqueryToSQL : SubqueryDef → String
  | .mk fromTable tblAlias sel join whereCond =>
    let fromPart := escapeIdentifier fromTable
    let aliasPart := match tblAlias with
      | some a => " " ++ escapeIdentifier a
      | none => ""
    let selectPart := sel.render
    let joinPart := match join with
      | some (.mk jt ja onC jty) =>
        " " ++ (jty.getD .inner).upper ++ " JOIN " ++ escapeIdentifier jt
          ++ (match ja with | some a => " " ++ escapeIdentifier a | none => "")
          ++ " ON " ++ onC.toSQL
      | none => ""
    let wherePart := match whereCond with
      | some w => " WHERE " ++ w.toSQL
      | none => ""
    "(" ++ ("SELECT " ++ selectPart ++ " FROM " ++ fromPart ++ aliasPart ++ joinPart ++ wherePart) ++ ")"

end

/-- Embedding of `createComparison` (sql.ts): constructs a comparison node
whose rendering is `escapeIdentifier(column) OP escapeValue(value)`. -/
def createComparison (column : String) (op : ComparisonOperator) (value : Value) : Condition :=
  .comparison column op value

/-! ## ConditionChain composition (column.ts) -/

/-- Embedding of `ConditionChain.flattenConditions`: an operand that is a
Logical node with the same operator contributes its children, any other
operand contributes itself. -/
def flattenConditions (left right : Condition) (op : LogicalOperator) : List Condition :=
  (match left with
    | .logical lop cs => if lop = op then cs else [left]
    | _ => [left]) ++
  (match right with
    | .logical rop cs => if rop = op then cs else [right]
    | _ => [right])

/-- Embedding of `ConditionChain.chainWith`: the combined node is a Logical
condition over the flattened operand sequence (its `toSQL` closure is the
`Condition.logical` rendering case). -/
def chainWith (self other : Condition) (op : LogicalOperator) : Condition :=
  .logical op (flattenConditions self other op)

/-- ConditionChain.and. -/
def Condition.chainAnd (self other : Condition) : Condition :=
  chainWith self other .and

/-- ConditionChain.or. -/
def Condition.chainOr (self other : Condition) : Condition :=
  chainWith self other .or

/-! ## Policy metadata (types.ts / policy-builder.ts) -/

inductive PolicyOperation where
  | SELECT | INSERT | UPDATE | DELETE | ALL
deriving DecidableEq, Repr

/-- Rendered operation keyword, `def.operation` as pushed into the
`FOR` clause. -/
def PolicyOperation.str : PolicyOperation → String
  | .SELECT => "SELECT"
  | .INSERT => "INSERT"
  | .UPDATE => "UPDATE"
  | .DELETE => "DELETE"
  | .ALL => "ALL"

/-- Lowercased operation, `this.state.operation.toLowerCase()` in
`generatePolicyName`. -/
def PolicyOperation.lower : PolicyOperation → String
  | .SELECT => "select"
  | .INSERT => "insert"
  | .UPDATE => "update"
  | .DELETE => "delete"
  | .ALL => "all"

inductive PolicyType where
  | PERMISSIVE | RESTRICTIVE
deriving DecidableEq, Repr

/-- PolicyBuilderState (types.ts): the mutable state accumulated by the
fluent methods, every field optional. -/
structure PolicyBuilderState where
  name : Option String := none
  table : Option String := none
  operation : Option PolicyOperation := none
  role : Option String := none
  ptype : Option PolicyType := none
  usingCond : Option Condition := none
  withCheck : Option Condition := none
  description : Option String := none

/-- PolicyDefinition (types.ts) as produced by `toDefinition`. -/
structure PolicyDefinition where
  name : String
  table : String
  operation : PolicyOperation
  role : Option String
  ptype : PolicyType
  usingCond : Option Condition
  withCheck : Option Condition
  description : Option String

/-- Embedding of `PolicyBuilder.generatePolicyName` (policy-builder.ts): the
auto-generated policy name from table, lowercased operation and the
restrictive marker; errors when table or operation is unset. -/
def generatePolicyName (s : PolicyBuilderState) : Except String String :=
  match s.table with
  | none => .error "Cannot generate policy name: table is required"
  | some table =>
    match s.operation with
    | none => .error "Cannot generate policy name: operation is required"
    | some op =>
      let operation := op.lower
      if s.ptype = some .RESTRICTIVE then
        .ok (table ++ "_" ++ operation ++ "_restrictive_policy")
      else
        .ok (table ++ "_" ++ operation ++ "_policy")

/-- Embedding of `PolicyBuilder.toDefinition` (policy-builder.ts): requires
table and operation, uses the provided name or the auto-generated one, and
sanitizes it for PostgreSQL compatibility. -/
def toDefinition (s : PolicyBuilderState) : Except String PolicyDefinition :=
  match s.table with
  | none => .error "Policy table is required"
  | some table =>
    match s.operation with
    | none => .error "Policy operation is required"
    | some op =>
      match (match s.name with
             | some n => Except.ok n
             | none => generatePolicyName s) with
      | .error e => .error e
      | .ok rawName =>
        match sanitizePolicyName rawName with
        | .error e => .error e
        | .ok name =>
          .ok { name := name, table := table, operation := op, role := s.role,
                ptype := s.ptype.getD .PERMISSIVE, usingCond := s.usingCond,
                withCheck := s.withCheck, description := s.description }

/-- Clause sequence of `PolicyBuilder.toSQL` (policy-builder.ts): the exact
`parts.push` order. -/
def policySQLParts (d : PolicyDefinition) : List String :=
  ["CREATE POLICY " ++ escapeIdentifier d.name, "ON " ++ escapeIdentifier d.table]
  ++ (if d.ptype = .RESTRICTIVE then ["AS RESTRICTIVE"] else [])
  ++ ["FOR " ++ d.operation.str]
  ++ (match d.role with | some r => ["TO " ++ escapeIdentifier r] | none => [])
  ++ (match d.usingCond with | some u => ["USING (" ++ u.toSQL ++ ")"] | none => [])
  ++ (match d.withCheck with | some w => ["WITH CHECK (" ++ w.toSQL ++ ")"] | none => [])

/-- The `parts.join(" ")` of `PolicyBuilder.toSQL`: the rendered
CREATE POLICY statement for a definition. -/
def renderPolicySQL (d : PolicyDefinition) : String :=
  String.intercalate " " (policySQLParts d)

/-! ## Index column extraction (policy-builder.ts) -/

/-- The `shouldIndex` test of `processComparisonCondition`: a context value
(`type: "context"`) or any value exposing a `toSQL` method. -/
def shouldIndexValue : Value → Bool
  | .vContext _ => true
  | .vExpr _ => true
  | .vCond _ => true
  | _ => false

/-- Insertion-ordered map update, the `Map.set` of the alias map: replace in
place when the key exists, append otherwise. -/
def mapSet (m : List (String × String)) (k v : String) : List (String × String) :=
  match m with
  | [] => [(k, v)]
  | (k', v') :: rest => if k' = k then (k, v) :: rest else (k', v') :: mapSet rest k v

/-- The `aliasMap.get(x) || x` lookup used by `parseColumnReference` and
`addColumn`. -/
def lookupAlias (m : List (String × String)) (k : String) : String :=
  match m.find? (fun p => p.1 = k) with
  | some p => p.2
  | none => k

/-- Embedding of the JavaScript `ref.split(".")` used by
`parseColumnReference` and the reference scan: split a character list at
every dot. -/
def splitDotAux : List Char → List Char → List String
  | [], acc => [String.mk acc.reverse]
  | c :: rest, acc =>
    if c = '.' then String.mk acc.reverse :: splitDotAux rest []
    else splitDotAux rest (c :: acc)

/-- The segments of a reference string split at every dot. -/
def splitDot (s : String) : List String :=
  splitDotAux s.data []

/-- Embedding of the JavaScript `String.prototype.includes(".")` test used
throughout policy-builder.ts and the reference scan: containment of a
character in the string. -/
def strIncludes (s : String) (c : Char) : Bool :=
  s.data.any (fun x => x = c)

/-- Embedding of `parseColumnReference` (policy-builder.ts): a dotted
reference is split at the dots and its first segment is resolved through the
alias map; an undotted reference resolves against the current table. -/
def parseColumnReference (columnRef currentTable : String)
    (aliasMap : List (String × String)) : String × String :=
  let parts := if strIncludes columnRef '.' then splitDot columnRef else [currentTable, columnRef]
  (lookupAlias aliasMap (parts.getD 0 ""), parts.getD 1 "")

/-- Insertion-ordered table-to-columns map update, the
`tableColumns.get(t).add(c)` of `extractIndexableColumns` (JS Map of Sets:
insertion order, duplicates ignored). -/
def tcAdd (tc : List (String × List String)) (t c : String) : List (String × List String) :=
  match tc with
  | [] => [(t, [c])]
  | (t', cs) :: rest =>
    if t' = t then (t', if cs.contains c then cs else cs ++ [c]) :: rest
    else (t', cs) :: tcAdd rest t c

/-- Walk state of `extractIndexableColumns`: the mutable `aliasToTable` map
and the accumulated `tableColumns`. -/
structure ExtractAcc where
  aliasMap : List (String × String)
  tableCols : List (String × List String)

/-- The `addColumn` closure of `extractIndexableColumns`: resolve the table
through the alias map, then record the column. -/
def accAdd (acc : ExtractAcc) (t c : String) : ExtractAcc :=
  { acc with tableCols := tcAdd acc.tableCols (lookupAlias acc.aliasMap t) c }

/-- Embedding of `registerAlias` (policy-builder.ts): record alias → table
when an alias is present. -/
def registerAliasAcc (al : Option String) (tableName : String) (acc : ExtractAcc) : ExtractAcc :=
  match al with
  | some a => { acc with aliasMap := mapSet acc.aliasMap a tableName }
  | none => acc

/-- Embedding of `processComparisonCondition` (policy-builder.ts): only `eq`
comparisons contribute; a dynamic value (context or `toSQL`-capable) indexes
the left column, a dotted string value indexes both sides, any other literal
contributes nothing. -/
def processComparisonCondition (column' : String) (op : ComparisonOperator)
    (value : Value) (currentTable : String) (acc : ExtractAcc) : ExtractAcc :=
  if op ≠ .eq then acc
  else
    let tc := parseColumnReference column' currentTable acc.aliasMap
    if shouldIndexValue value then accAdd acc tc.1 tc.2
    else
      match value with
      | .vStr s =>
        if strIncludes s '.' then
          let acc1 := accAdd acc tc.1 tc.2
          let rightSide := parseColumnReference s currentTable acc1.aliasMap
          accAdd acc1 rightSide.1 rightSide.2
        else acc
      | _ => acc

/-- Embedding of `processHelperCondition` (policy-builder.ts): the
`isMemberOf` helper indexes the local key, the join-table foreign key, and
the join-table `user_id` column. -/
def processHelperIsMemberOf (joinTable foreignKey localKey currentTable : String)
    (acc : ExtractAcc) : ExtractAcc :=
  let parts := if strIncludes localKey '.' then splitDot localKey else [currentTable, localKey]
  let acc1 := accAdd acc (parts.getD 0 "") (parts.getD 1 "")
  let acc2 := accAdd acc1 joinTable foreignKey
  accAdd acc2 joinTable "user_id"

mutual

/-- Embedding of the `processCondition` walk of `extractIndexableColumns`
(policy-builder.ts): comparison, membership, logical and helper nodes are
processed; pattern and null nodes contribute nothing. -/
def processCondition : Condition → String → ExtractAcc → ExtractAcc
  | .comparison c op v, currentTable, acc =>
    processComparisonCondition c op v currentTable acc
  | .membershipIn c _, currentTable, acc =>
    let tc := parseColumnReference c currentTable acc.aliasMap
    accAdd acc tc.1 tc.2
  | .membershipInSub c sub, currentTable, acc =>
    let tc := parseColumnReference c currentTable acc.aliasMap
    processSubqueryForIndexing sub (accAdd acc tc.1 tc.2)
  | .membershipContains _ _, _, acc => acc
  | .logical _ conds, currentTable, acc => processConditionList conds currentTable acc
  | .helperIsMemberOf jt fk lk, currentTable, acc =>
    processHelperIsMemberOf jt fk lk currentTable acc
  | .pattern _ _ _, _, acc => acc
  | .nullCheck _ _, _, acc => acc
  | .helperHasRole _ _, _, acc => acc
  | .helperAlwaysTrue, _, acc => acc

/-- The `conditions.forEach` of the logical case of `processCondition`. -/
def processConditionList : List Condition → String → ExtractAcc → ExtractAcc
  | [], _, acc => acc
  | c :: cs, currentTable, acc =>
    processConditionList cs currentTable (processCondition c currentTable acc)

/-- Embedding of `processSubqueryForIndexing` with `processSubqueryJoin`
(policy-builder.ts): register the from alias, process the single join
ON-condition under both the main and the join table alias, then the WHERE
condition under the main alias. -/
def processSubqueryForIndexing : SubqueryDef → ExtractAcc → ExtractAcc
  | .mk fromT al _ join whereC, acc =>
    let mainTableAlias := al.getD fromT
    let acc1 := registerAliasAcc al fromT acc
    let acc2 := match join with
      | some (.mk jt ja onC _) =>
        let joinTableAlias := ja.getD jt
        let accJ := registerAliasAcc ja jt acc1
        processCondition onC joinTableAlias (processCondition onC mainTableAlias accJ)
      | none => acc1
    match whereC with
    | some w => processCondition w mainTableAlias acc2
    | none => acc2

end

/-- Embedding of `extractIndexableColumns` (policy-builder.ts): walk the
condition tree starting from the policy table with empty alias map. -/
def extractIndexableColumns (condition : Option Condition) (tableName : String) :
    List (String × List String) :=
  match condition with
  | none => []
  | some c => (processCondition c tableName ⟨[], []⟩).tableCols

/-- Embedding of `generateIndexSQL` (policy-builder.ts): one
CREATE INDEX IF NOT EXISTS statement per collected (table, column) pair, in
insertion order. -/
def generateIndexSQL (tableColumns : List (String × List String)) : List String :=
  tableColumns.flatMap (fun p => p.2.map (fun c =>
    "CREATE INDEX IF NOT EXISTS " ++ escapeIdentifier ("idx_" ++ p.1 ++ "_" ++ c)
      ++ " ON " ++ escapeIdentifier p.1 ++ " (" ++ escapeIdentifier c ++ ");"))

/-- The merge loops of `PolicyBuilder.toSQL` that fold the USING and the
WITH CHECK extraction results into one table-to-columns map, preserving
insertion order and de-duplicating columns. -/
def tcMerge (dst src : List (String × List String)) : List (String × List String) :=
  src.foldl (fun d p => p.2.foldl (fun d' c => tcAdd d' p.1 c) d) dst

/-- Embedding of `PolicyBuilder.toSQL` (policy-builder.ts): the rendered
policy statement, followed, when `includeIndexes` is requested and any pair
was collected, by a blank line and the CREATE INDEX statements. -/
def policyToSQL (s : PolicyBuilderState) (includeIndexes : Bool) : Except String String :=
  match toDefinition s with
  | .error e => .error e
  | .ok d =>
    let policySQL := renderPolicySQL d
    if includeIndexes then
      let tc1 := tcMerge [] (extractIndexableColumns d.usingCond d.table)
      let tc2 := tcMerge tc1 (extractIndexableColumns d.withCheck d.table)
      if tc2.isEmpty then
        .ok policySQL
      else
        .ok (policySQL ++ ";\n\n" ++ String.intercalate "\n" (generateIndexSQL tc2))
    else
      .ok policySQL

/-! ## Subquery builder and reference validation (subquery-builder.ts) -/

/-- One entry of the `_joins` array of SubqueryBuilder: the stored join type
is always set (`type: type || "inner"` at `.join()` time). -/
structure SubqueryJoin where
  table : String
  jAlias : Option String
  onCond : Condition
  jtype : JoinType

/-- SubqueryBuilder state (subquery-builder.ts): from table, optional from
alias, select list (initially the single column `*`), optional WHERE, and
the list of added joins. -/
structure SubqueryBuilder where
  fromTable : String
  fromAlias : Option String := none
  sel : SelectList := .one "*"
  whereCond : Option Condition := none
  joins : List SubqueryJoin := []

/-- Modelled from the spec: `getAvailableTables` lives in src/validation.ts,
which is imported by subquery-builder.ts but absent from src/.  Per spec
section 4.4 the available set is the subquery own from-alias-or-name plus
every already-added join alias-or-name. -/
def getAvailableTables (fromTable : String) (fromAlias : Option String)
    (joins : List SubqueryJoin) : List String :=
  (fromAlias.getD fromTable) :: joins.map (fun j => j.jAlias.getD j.table)

/-- Alias segment of a qualified column reference: the part before the first
dot when the reference is dotted, nothing otherwise (unqualified references
are never flagged, spec section 4.4 edge case). -/
def dottedAliasOf (ref : String) : List String :=
  if strIncludes ref '.' then [(splitDot ref).getD 0 ""] else []

/-- Aliases referenced by a comparison value: a dotted string value is a
qualified column reference in this DSL (compare the dotted-string branch of
`processComparisonCondition`); every other value references no table. -/
def valueAliases : Value → List String
  | .vStr s => dottedAliasOf s
  | _ => []

mutual

/-- Modelled from the spec: the recursive scan of `detectMissingJoins`
(src/validation.ts, absent from src/).  Per spec section 4.4 it walks
Logical, Membership, Subquery and Helper nodes uniformly collecting every
qualified column reference of `alias.column` form; a nested subquery is its
own scope, validated at its own construction, so only its membership column
is collected here. -/
def collectQualifiedAliases : Condition → List String
  | .comparison c _ v => dottedAliasOf c ++ valueAliases v
  | .pattern c _ _ => dottedAliasOf c
  | .membershipIn c _ => dottedAliasOf c
  | .membershipInSub c _ => dottedAliasOf c
  | .membershipContains c _ => dottedAliasOf c
  | .nullCheck c _ => dottedAliasOf c
  | .logical _ conds => collectQualifiedAliasesList conds
  | .helperIsMemberOf _ _ lk => dottedAliasOf lk
  | .helperHasRole _ _ => []
  | .helperAlwaysTrue => []

/-- Collection over the children of a logical node. -/
def collectQualifiedAliasesList : List Condition → List String
  | [] => []
  | c :: cs => collectQualifiedAliases c ++ collectQualifiedAliasesList cs

end

/-- Modelled from the spec: `detectMissingJoins` (src/validation.ts, absent
from src/) returns the referenced aliases that are not in the available set. -/
def detectMissingJoins (condition : Condition) (availableTables : List String) : List String :=
  (collectQualifiedAliases condition).filter (fun a => !(availableTables.contains a))

/-- Embedding of `validateTableReferences` (subquery-builder.ts): compute the
missing aliases, drop the allowed one when validating a join ON-condition,
and fail with the corresponding descriptive message when any remain. -/
def validateTableReferences (condition : Condition) (fromTable : String)
    (fromAlias : Option String) (joins : List SubqueryJoin)
    (allowedMissing : Option String) : Except String Unit :=
  let availableTables := getAvailableTables fromTable fromAlias joins
  let missing := detectMissingJoins condition availableTables
  if missing.isEmpty then .ok ()
  else
    let filteredMissing := match allowedMissing with
      | some a => missing.filter (fun t => t != a)
      | none => missing
    if filteredMissing.isEmpty then .ok ()
    else
      match allowedMissing with
      | some _ =>
        .error ("Join condition references unavailable table(s): "
          ++ String.intercalate ", " filteredMissing)
      | none =>
        .error ("Missing join(s) for table(s): " ++ String.intercalate ", " filteredMissing
          ++ ". Add a join using .join(\x27" ++ filteredMissing.headD ""
          ++ "\x27, ...) before calling .where()")

/-- Embedding of `SubqueryBuilder.where`: validate the condition against the
from table and every already-added join, then store it. -/
def SubqueryBuilder.whereCall (b : SubqueryBuilder) (condition : Condition) :
    Except String SubqueryBuilder :=
  match validateTableReferences condition b.fromTable b.fromAlias b.joins none with
  | .error e => .error e
  | .ok _ => .ok { b with whereCond := some condition }

/-- Embedding of `SubqueryBuilder.join`: validate the ON-condition allowing
the alias-or-name of the join target being added, then append the join. -/
def SubqueryBuilder.joinCall (b : SubqueryBuilder) (table : String) (onCond : Condition)
    (jtype : Option JoinType) (al : Option String) : Except String SubqueryBuilder :=
  match validateTableReferences onCond b.fromTable b.fromAlias b.joins
      (some (al.getD table)) with
  | .error e => .error e
  | .ok _ =>
    .ok { b with joins := b.joins ++ [{ table := table, jAlias := al, onCond := onCond,
                                        jtype := jtype.getD .inner }] }

/-- Embedding of `SubqueryBuilder.toSubquery`: only the first added join, if
any, is carried into the rendered SubqueryDefinition. -/
def SubqueryBuilder.toSubquery (b : SubqueryBuilder) : SubqueryDef :=
  .mk b.fromTable b.fromAlias b.sel
    (match b.joins with
      | [] => none
      | j :: _ => some (.mk j.table j.jAlias j.onCond (some j.jtype)))
    b.whereCond

/-- Embedding of `from` (subquery-builder.ts): a fresh builder for a table
with an optional alias. -/
def fromBuilder (table : String) (al : Option String) : SubqueryBuilder :=
  { fromTable := table, fromAlias := al }

/-! ## General lemmas about the embedding -/

theorem escapeValueList_eq_map (l : List Value) : escapeValueList l = l.map escapeValue := by
  induction l with
  | nil => rfl
  | cons v vs ih => simp [escapeValueList, ih]

theorem toSQLList_eq_map (l : List Condition) :
    Condition.toSQLList l = l.map Condition.toSQL := by
  induction l with
  | nil => rfl
  | cons c cs ih => simp [Condition.toSQLList, ih]

theorem escapeIdentifier_of_ident (s : String) (h : s.data.all isIdentChar = true) :
    escapeIdentifier s = s := by
  have hany : s.data.any (fun c => !(isIdentChar c)) = false := by
    simp only [List.all_eq_true] at h
    simp only [List.any_eq_false, Bool.not_eq_true]
    intro c hc
    simp [h c hc]
  simp [escapeIdentifier, hany]

theorem escapeIdentifier_of_bad (s : String) (h : s.data.all isIdentChar = false) :
    escapeIdentifier s = "\"" ++ doubleQuotes s ++ "\"" := by
  have hany : s.data.any (fun c => !(isIdentChar c)) = true := by
    simp only [List.all_eq_false] at h
    obtain ⟨c, hc, hbad⟩ := h
    exact List.any_eq_true.mpr ⟨c, hc, by simp [hbad]⟩
  simp [escapeIdentifier, hany]

theorem doubleQuotes_length_ge (s : String) : s.length ≤ (doubleQuotes s).length := by
  show s.data.length ≤ (String.mk _).length
  have : ∀ l : List Char,
      l.length ≤ (l.flatMap (fun c => if c = '"' then ['"', '"'] else [c])).length := by
    intro l
    induction l with
    | nil => simp
    | cons c cs ih =>
      rw [List.flatMap_cons, List.length_append, List.length_cons]
      by_cases h : c = '"'
      · simp only [if_pos h, List.length_cons, List.length_singleton]
        omega
      · simp only [if_neg h, List.length_singleton]
        omega
  exact this s.data

theorem escapeIdentifier_ne_of_bad (s : String) (h : s.data.all isIdentChar = false) :
    escapeIdentifier s ≠ s := by
  rw [escapeIdentifier_of_bad s h]
  intro he
  have hl := congrArg String.length he
  have hq := doubleQuotes_length_ge s
  simp only [String.length_append] at hl
  have h1 : ("\"" : String).length = 1 := rfl
  omega

/-! ## Claim C4: identifier and value escaping -/

/-- Full-match test of the regex `[A-Za-z0-9_]+` named by claim C4: at least
one character, all of them in the class. -/
def matchesIdentPlus (s : String) : Bool :=
  !s.isEmpty && s.data.all isIdentChar

/-- C4 counterexample: the claim says `escapeIdentifier` returns the input
unchanged exactly when it matches `[A-Za-z0-9_]+`, but the empty string does
not match that pattern (it needs one or more characters) and is nevertheless
returned unchanged rather than wrapped in double quotes. -/
theorem escapeIdentifier_empty_breaks_claim :
    escapeIdentifier "" = "" ∧ matchesIdentPlus "" = false ∧
      escapeIdentifier "" ≠ "\"" ++ doubleQuotes "" ++ "\"" := by
  refine ⟨rfl, rfl, ?_⟩
  decide

/-- C4 (amended): `escapeIdentifier` returns the input unchanged exactly when
every character is in `[A-Za-z0-9_]` (so also for the empty string) and
otherwise wraps it in double quotes doubling embedded double quotes; and
`escapeValue` maps null to NULL, true/false to TRUE/FALSE, a number to its
unquoted decimal text, a Date to its single-quoted ISO string cast to
TIMESTAMP, a string to a single-quoted literal with single quotes doubled, an
array to ARRAY[...] of recursively escaped elements, and any render-to-SQL
capable value (SQLExpression, context value, or Condition) to its rendered
text as-is. -/
theorem escape_spec :
    (∀ s : String, escapeIdentifier s = s ↔ s.data.all isIdentChar = true) ∧
    (∀ s : String, s.data.all isIdentChar = false →
      escapeIdentifier s = "\"" ++ doubleQuotes s ++ "\"") ∧
    escapeValue .vNull = "NULL" ∧
    escapeValue (.vBool true) = "TRUE" ∧
    escapeValue (.vBool false) = "FALSE" ∧
    (∀ n : Int, escapeValue (.vNum n) = toString n) ∧
    (∀ iso, escapeValue (.vDate iso) = "\x27" ++ iso ++ "\x27::TIMESTAMP") ∧
    (∀ s, escapeValue (.vStr s) = "\x27" ++ doubleSingleQuotes s ++ "\x27") ∧
    (∀ l, escapeValue (.vArr l) = "ARRAY[" ++ String.intercalate ", " (l.map escapeValue) ++ "]") ∧
    (∀ r, escapeValue (.vExpr r) = r) ∧
    (∀ r, escapeValue (.vContext r) = r) ∧
    (∀ r, escapeValue (.vCond r) = r) := by
  refine ⟨?_, escapeIdentifier_of_bad, rfl, rfl, rfl, fun _ => rfl, fun _ => rfl,
    fun _ => rfl, ?_, fun _ => rfl, fun _ => rfl, fun _ => rfl⟩
  · intro s
    constructor
    · intro he
      by_contra hb
      exact escapeIdentifier_ne_of_bad s (Bool.eq_false_iff.mpr hb) he
    · exact escapeIdentifier_of_ident s
  · intro l
    rw [escapeValue, escapeValueList_eq_map]

/-- C4 witness: the spec examples, obtained from `escape_spec` at concrete
inputs. -/
theorem escape_spec_witness :
    escapeIdentifier "table-name" = "\"" ++ doubleQuotes "table-name" ++ "\"" ∧
    (escapeIdentifier "documents" = "documents" ↔ "documents".data.all isIdentChar = true) ∧
    escapeValue (.vStr "O\x27Brien") = "\x27" ++ doubleSingleQuotes "O\x27Brien" ++ "\x27" :=
  ⟨escape_spec.2.1 "table-name" (by decide), escape_spec.1 "documents",
    escape_spec.2.2.2.2.2.2.2.1 "O\x27Brien"⟩

/-! ## Claim C5: policy name sanitization -/

/-- Run-collapse phrased right-to-left, for comparison with the
left-to-right `collapseUnderscores`: a character is dropped exactly when it
is an underscore immediately followed by a kept underscore. -/
def specCollapse (l : List Char) : List Char :=
  l.foldr (fun c acc => if c = '_' ∧ acc.head? = some '_' then acc else c :: acc) []

theorem specCollapse_cons (c : Char) (l : List Char) :
    specCollapse (c :: l) =
      if c = '_' ∧ (specCollapse l).head? = some '_' then specCollapse l
      else c :: specCollapse l := rfl

theorem specCollapse_head (c : Char) (l : List Char) :
    (specCollapse (c :: l)).head? = some c := by
  rw [specCollapse_cons]
  by_cases h : c = '_' ∧ (specCollapse l).head? = some '_'
  · rw [if_pos h, h.2, h.1]
  · rw [if_neg h]
    rfl

theorem collapseUnderscores_eq_spec (l : List Char) :
    collapseUnderscores l = specCollapse l := by
  induction l with
  | nil => rfl
  | cons c rest ih =>
    cases rest with
    | nil => simp [collapseUnderscores, specCollapse]
    | cons c2 rest2 =>
      rw [collapseUnderscores, ih]
      conv_rhs => rw [specCollapse_cons c (c2 :: rest2)]
      rw [specCollapse_head c2 rest2]
      by_cases hc : c = '_' <;> by_cases hc2 : c2 = '_' <;> simp [hc, hc2]

/-- Sanitization core phrased per the amended claim C5: each character is
lower-cased and replaced by an underscore when outside `[a-z0-9_]`, then
every run of underscores (including runs already present in the input) is
collapsed to a single underscore, leading and trailing underscores are
stripped, and an underscore is prefixed when the result starts with a
digit. -/
def specCore (name : String) : List Char :=
  let replaced := name.data.map (fun c => if isSanChar c.toLower then c.toLower else '_')
  let cleaned := stripUnderscores (specCollapse replaced)
  match cleaned with
  | c :: _ => if isDigitChar c then '_' :: cleaned else cleaned
  | [] => cleaned

/-- Sanitization phrased per the amended claim C5: reject whitespace-only
input and an empty result of the core chain; above 63 characters truncate
and append an underscore plus a deterministic hash of the original name. -/
def specSanitize (name : String) : Except String String :=
  if name.data.all (fun c => c.isWhitespace) then
    .error "Policy name cannot be empty"
  else
    let final := specCore name
    if final.isEmpty then
      .error ("Policy name \"" ++ name ++ "\" results in an empty identifier after sanitization")
    else if final.length > postgresMaxIdentifierLength then
      let hashSuffix := "_" ++ simpleHash name
      let maxBaseLength := postgresMaxIdentifierLength - hashSuffix.length
      .ok (String.mk (final.take maxBaseLength) ++ hashSuffix)
    else
      .ok (String.mk final)

theorem sanitizeCore_eq_specCore (name : String) : sanitizeCore name = specCore name := by
  simp only [sanitizeCore, specCore, List.map_map, Function.comp,
    collapseUnderscores_eq_spec]
  rfl

/-- First half of the C5 collision inputs: 64 letters a followed by Aa. -/
def collideName1 : String := String.mk (List.replicate 64 'a') ++ "Aa"

/-- Second half of the C5 collision inputs: 64 letters a followed by BB. -/
def collideName2 : String := String.mk (List.replicate 64 'a') ++ "BB"

theorem toInt32_emod (x : Int) : toInt32 x % 4294967296 = x % 4294967296 := by
  simp only [toInt32]
  split <;> omega

theorem toInt32_congr {x y : Int} (h : x % 4294967296 = y % 4294967296) :
    toInt32 x = toInt32 y := by
  simp only [toInt32]
  rw [h]

/-- The hash steps for the final characters Aa and BB coincide from any
accumulator, since 31 times 65 plus 97 equals 31 times 66 plus 66. -/
theorem hashStep_collision (h : Int) :
    hashStep (hashStep h 'A') 'a' = hashStep (hashStep h 'B') 'B' := by
  have hA : ((Char.toNat 'A' : Nat) : Int) = 65 := rfl
  have ha : ((Char.toNat 'a' : Nat) : Int) = 97 := rfl
  have hB : ((Char.toNat 'B' : Nat) : Int) = 66 := rfl
  unfold hashStep
  rw [hA, ha, hB]
  apply toInt32_congr
  have e1 := toInt32_emod (h * 32)
  have e2 := toInt32_emod (toInt32 (h * 32) - h + 65)
  have e3 := toInt32_emod (toInt32 (toInt32 (h * 32) - h + 65) * 32)
  have e4 := toInt32_emod (toInt32 (h * 32) - h + 66)
  have e5 := toInt32_emod (toInt32 (toInt32 (h * 32) - h + 66) * 32)
  omega

set_option maxRecDepth 8192 in
theorem simpleHashInt_collide : simpleHashInt collideName1 = simpleHashInt collideName2 := by
  show (collideName1.data).foldl hashStep 0 = (collideName2.data).foldl hashStep 0
  have h1 : collideName1.data = List.replicate 64 'a' ++ ['A', 'a'] := by decide
  have h2 : collideName2.data = List.replicate 64 'a' ++ ['B', 'B'] := by decide
  rw [h1, h2, List.foldl_append, List.foldl_append]
  simp only [List.foldl_cons, List.foldl_nil]
  exact hashStep_collision _

theorem simpleHash_collide : simpleHash collideName1 = simpleHash collideName2 := by
  unfold simpleHash
  rw [simpleHashInt_collide]

/-- Evaluation of `sanitizePolicyName` on the over-length branch without
computing the hash. -/
theorem sanitize_long (name : String)
    (hw : (name.data.all (fun c => c.isWhitespace)) = false)
    (hne : (sanitizeCore name).isEmpty = false)
    (hlong : (sanitizeCore name).length > postgresMaxIdentifierLength) :
    sanitizePolicyName name =
      .ok (String.mk ((sanitizeCore name).take
          (postgresMaxIdentifierLength - ("_" ++ simpleHash name).length))
        ++ ("_" ++ simpleHash name)) := by
  simp only [sanitizePolicyName, hw, hne, hlong]
  simp

set_option maxRecDepth 8192 in
theorem collideNames_eq :
    sanitizePolicyName collideName1 = sanitizePolicyName collideName2 := by
  rw [sanitize_long collideName1 (by decide) (by decide) (by decide),
      sanitize_long collideName2 (by decide) (by decide) (by decide),
      simpleHash_collide]
  have hn : postgresMaxIdentifierLength - ("_" ++ simpleHash collideName2).length ≤ 64 :=
    le_trans (Nat.sub_le _ _) (by decide)
  have hc1 : sanitizeCore collideName1 = List.replicate 64 'a' ++ ['a', 'a'] := by decide
  have hc2 : sanitizeCore collideName2 = List.replicate 64 'a' ++ ['b', 'b'] := by decide
  rw [hc1, hc2,
      List.take_append_of_le_length (by simpa using hn),
      List.take_append_of_le_length (by simpa using hn)]

set_option maxRecDepth 8192 in
/-- C5 counterexample: the claim describes the sanitizer as replacing every
run of characters outside `[a-z0-9_]` with one underscore, but the code also
collapses runs of underscores that are legitimate `[a-z0-9_]` characters of
the input, so the input with two legitimate underscores maps to a single
one; and the claim says distinct long inputs do not collide, but two
distinct 66-character inputs with equal sanitized prefixes and equal
`simpleHash` values map to the same output. -/
theorem sanitizePolicyName_breaks_claim :
    sanitizePolicyName "a__b" = .ok "a_b" ∧ ("a_b" : String) ≠ "a__b" ∧
      collideName1 ≠ collideName2 ∧
      sanitizePolicyName collideName1 = sanitizePolicyName collideName2 := by
  refine ⟨rfl, by decide, by decide, collideNames_eq⟩

/-- C5 (amended): the sanitizer lower-cases, replaces every character
outside `[a-z0-9_]` with an underscore, collapses every underscore run
(including runs of legitimate input underscores) to one underscore, strips
leading and trailing underscores, prefixes an underscore when the result
starts with a digit, truncates and appends an underscore plus a
deterministic hash of the original name when over 63 characters (distinct
long inputs can still collide when prefixes and hashes coincide), keeping
every output at most 63 characters; it errors exactly on empty or
whitespace-only input and on an empty sanitization result. -/
theorem sanitizePolicyName_spec :
    (∀ name, sanitizePolicyName name = specSanitize name) ∧
    (∀ name r, sanitizePolicyName name = .ok r → r.length ≤ 63) ∧
    (∀ name, (sanitizePolicyName name).isOk = false ↔
      (name.data.all (fun c => c.isWhitespace) = true ∨ sanitizeCore name = [])) := by
  refine ⟨?_, ?_, ?_⟩
  · intro name
    simp only [sanitizePolicyName, specSanitize, sanitizeCore_eq_specCore]
  · intro name r h
    simp only [sanitizePolicyName] at h
    split at h
    · exact absurd h (by simp)
    · split at h
      · exact absurd h (by simp)
      · split at h
        · rename_i hlong
          have hsuffix : ("_" ++ simpleHash name).length ≤ 7 := by
            have : (simpleHash name).length ≤ 6 := by
              show ((Nat.toDigits 16 (simpleHashInt name).natAbs).take 6).length ≤ 6
              exact le_trans (List.length_take_le _ _) (le_refl 6)
            simp only [String.length_append]
            have h1 : ("_" : String).length = 1 := rfl
            omega
          have hr := congrArg String.length (Except.ok.inj h)
          rw [String.length_append] at hr
          have htake : ((sanitizeCore name).take
              (postgresMaxIdentifierLength - ("_" ++ simpleHash name).length)).length ≤
              postgresMaxIdentifierLength - ("_" ++ simpleHash name).length :=
            List.length_take_le _ _
          have hmk : (String.mk ((sanitizeCore name).take
              (postgresMaxIdentifierLength - ("_" ++ simpleHash name).length))).length =
              ((sanitizeCore name).take
                (postgresMaxIdentifierLength - ("_" ++ simpleHash name).length)).length := rfl
          rw [hmk] at hr
          show r.length ≤ 63
          have h63 : postgresMaxIdentifierLength = 63 := rfl
          omega
        · rename_i hshort
          have hr := congrArg String.length (Except.ok.inj h)
          have hmk : (String.mk (sanitizeCore name)).length = (sanitizeCore name).length := rfl
          rw [hmk] at hr
          show r.length ≤ 63
          have h63 : postgresMaxIdentifierLength = 63 := rfl
          simp only [not_lt] at hshort
          omega
  · intro name
    simp only [sanitizePolicyName]
    split
    · rename_i hw
      simp [Except.isOk, Except.toBool, hw]
    · rename_i hw
      split
      · rename_i he
        simp only [List.isEmpty_iff] at he
        simp [Except.isOk, Except.toBool, he]
      · rename_i he
        simp only [List.isEmpty_iff] at he
        split
        · simp [Except.isOk, Except.toBool, hw, he]
        · simp [Except.isOk, Except.toBool, hw, he]

/-- C5 witness: instances of `sanitizePolicyName_spec` at the spec examples. -/
theorem sanitizePolicyName_spec_witness :
    sanitizePolicyName "My Policy-Name" = specSanitize "My Policy-Name" ∧
    ("my_policy_name" : String).length ≤ 63 ∧
    ((sanitizePolicyName "   ").isOk = false ↔
      ("   ".data.all (fun c => c.isWhitespace) = true ∨ sanitizeCore "   " = [])) :=
  ⟨sanitizePolicyName_spec.1 "My Policy-Name",
   sanitizePolicyName_spec.2.1 "My Policy-Name" "my_policy_name" rfl,
   sanitizePolicyName_spec.2.2 "   "⟩

/-! ## Claim C1: CREATE POLICY clause order -/

/-- C1: the rendered policy statement is exactly CREATE POLICY name ON
table, followed in this fixed order by AS RESTRICTIVE only when the policy
is restrictive, FOR operation, TO role only when a role is set, USING
(condition) only when a USING condition is set, and WITH CHECK (condition)
only when a WITH CHECK condition is set, with no clause omitted, reordered
or duplicated.  The name hypothesis records that sanitized policy names
consist of identifier characters, so escaping leaves them unchanged. -/
theorem renderPolicySQL_clause_order (d : PolicyDefinition)
    (h : d.name.data.all isIdentChar = true) :
    renderPolicySQL d =
      "CREATE POLICY " ++ d.name ++ " ON " ++ escapeIdentifier d.table
        ++ (if d.ptype = .RESTRICTIVE then " AS RESTRICTIVE" else "")
        ++ " FOR " ++ d.operation.str
        ++ (match d.role with
            | some r => " TO " ++ escapeIdentifier r
            | none => "")
        ++ (match d.usingCond with
            | some u => " USING (" ++ u.toSQL ++ ")"
            | none => "")
        ++ (match d.withCheck with
            | some w => " WITH CHECK (" ++ w.toSQL ++ ")"
            | none => "") := by
  obtain ⟨name, table, op, role, ptype, u, w, desc⟩ := d
  simp only at h
  rw [renderPolicySQL, policySQLParts]
  simp only [escapeIdentifier_of_ident name h]
  cases ptype <;> cases role <;> cases u <;> cases w <;>
    (apply String.ext
     simp [String.intercalate, String.intercalate.go])

/-- C1 witness: a concrete policy with every optional clause present. -/
theorem renderPolicySQL_clause_order_witness :
    renderPolicySQL
      { name := "tenant_guard", table := "data", operation := .ALL,
        role := some "authenticated", ptype := .RESTRICTIVE,
        usingCond := some (.comparison "tenant_id" .eq (.vNum 1)),
        withCheck := some (.comparison "tenant_id" .eq (.vNum 1)),
        description := none } =
      "CREATE POLICY " ++ "tenant_guard" ++ " ON " ++ escapeIdentifier "data"
        ++ " AS RESTRICTIVE"
        ++ " FOR " ++ PolicyOperation.ALL.str
        ++ (" TO " ++ escapeIdentifier "authenticated")
        ++ (" USING (" ++ (Condition.comparison "tenant_id" .eq (.vNum 1)).toSQL ++ ")")
        ++ (" WITH CHECK (" ++ (Condition.comparison "tenant_id" .eq (.vNum 1)).toSQL ++ ")") := by
  have := renderPolicySQL_clause_order
    { name := "tenant_guard", table := "data", operation := .ALL,
      role := some "authenticated", ptype := .RESTRICTIVE,
      usingCond := some (.comparison "tenant_id" .eq (.vNum 1)),
      withCheck := some (.comparison "tenant_id" .eq (.vNum 1)),
      description := none } (by decide)
  simpa using this

/-! ## Claim C2: AND/OR flattening -/

/-- Contribution of one operand inside `flattenConditions`: a Logical node
with the same operator contributes its children, everything else
contributes itself. -/
def spliceIf (c : Condition) (op : LogicalOperator) : List Condition :=
  match c with
  | .logical o cs => if o = op then cs else [c]
  | _ => [c]

theorem flattenConditions_eq (l r : Condition) (op : LogicalOperator) :
    flattenConditions l r op = spliceIf l op ++ spliceIf r op := rfl

/-- Boolean test for a Logical node with a given operator. -/
def Condition.isLogicalWith (c : Condition) (op : LogicalOperator) : Bool :=
  match c with
  | .logical o _ => o = op
  | _ => false

theorem spliceIf_of_not (c : Condition) (op : LogicalOperator)
    (h : c.isLogicalWith op = false) : spliceIf c op = [c] := by
  cases c <;> simp_all [spliceIf, Condition.isLogicalWith]

theorem spliceIf_logical (op : LogicalOperator) (cs : List Condition) :
    spliceIf (.logical op cs) op = cs := by
  simp [spliceIf]

/-- Rendered text of a three-child logical node. -/
theorem toSQL_logical_three (op : LogicalOperator) (a b c : Condition) :
    (Condition.logical op [a, b, c]).toSQL
      = "(" ++ a.toSQL ++ " " ++ op.str ++ " " ++ b.toSQL ++ " " ++ op.str ++ " "
          ++ c.toSQL ++ ")" := by
  rw [Condition.toSQL]
  simp only [Condition.toSQLList]
  apply String.ext
  simp [String.intercalate, String.intercalate.go]

/-- Rendered text of a two-child logical node. -/
theorem toSQL_logical_two (op : LogicalOperator) (a b : Condition) :
    (Condition.logical op [a, b]).toSQL
      = "(" ++ a.toSQL ++ " " ++ op.str ++ " " ++ b.toSQL ++ ")" := by
  rw [Condition.toSQL]
  simp only [Condition.toSQLList]
  apply String.ext
  simp [String.intercalate, String.intercalate.go]

/-- C2: same-operator chains flatten to a single level: both associations of
three conditions produce the same node, and when the operands are not
themselves same-operator Logical nodes the rendering is the single-level
(a AND b AND c) with operands in left-to-right order (likewise for OR);
combining an AND chain with an OR operand keeps the OR operand as exactly
one nested parenthesized child. -/
theorem chain_flattening :
    (∀ a b c : Condition,
      (a.chainAnd b).chainAnd c = a.chainAnd (b.chainAnd c) ∧
      (a.chainOr b).chainOr c = a.chainOr (b.chainOr c)) ∧
    (∀ a b c : Condition, a.isLogicalWith .and = false → b.isLogicalWith .and = false →
      c.isLogicalWith .and = false →
      ((a.chainAnd b).chainAnd c).toSQL
          = "(" ++ a.toSQL ++ " AND " ++ b.toSQL ++ " AND " ++ c.toSQL ++ ")" ∧
      (a.chainAnd (b.chainAnd c)).toSQL
          = "(" ++ a.toSQL ++ " AND " ++ b.toSQL ++ " AND " ++ c.toSQL ++ ")") ∧
    (∀ a b c : Condition, a.isLogicalWith .or = false → b.isLogicalWith .or = false →
      c.isLogicalWith .or = false →
      ((a.chainOr b).chainOr c).toSQL
          = "(" ++ a.toSQL ++ " OR " ++ b.toSQL ++ " OR " ++ c.toSQL ++ ")") ∧
    (∀ a b c : Condition, a.isLogicalWith .and = false → b.isLogicalWith .or = false →
      c.isLogicalWith .or = false →
      (a.chainAnd (b.chainOr c)).toSQL
          = "(" ++ a.toSQL ++ " AND " ++ ("(" ++ b.toSQL ++ " OR " ++ c.toSQL ++ ")") ++ ")") := by
  have hassoc : ∀ (op : LogicalOperator) (a b c : Condition),
      chainWith (chainWith a b op) c op = chainWith a (chainWith b c op) op := by
    intro op a b c
    unfold chainWith
    simp only [flattenConditions_eq, spliceIf_logical]
    rw [List.append_assoc]
  have hflat : ∀ (op : LogicalOperator) (a b c : Condition),
      a.isLogicalWith op = false → b.isLogicalWith op = false →
      c.isLogicalWith op = false →
      chainWith (chainWith a b op) c op = .logical op [a, b, c] := by
    intro op a b c ha hb hc
    unfold chainWith
    simp only [flattenConditions_eq, spliceIf_logical]
    rw [spliceIf_of_not a op ha, spliceIf_of_not b op hb, spliceIf_of_not c op hc]
    rfl
  refine ⟨fun a b c => ⟨hassoc .and a b c, hassoc .or a b c⟩, ?_, ?_, ?_⟩
  · intro a b c ha hb hc
    constructor
    · rw [Condition.chainAnd, Condition.chainAnd, hflat .and a b c ha hb hc,
          toSQL_logical_three]
      apply String.ext
      simp [LogicalOperator.str]
    · rw [Condition.chainAnd, Condition.chainAnd, ← hassoc .and a b c,
          hflat .and a b c ha hb hc, toSQL_logical_three]
      apply String.ext
      simp [LogicalOperator.str]
  · intro a b c ha hb hc
    rw [Condition.chainOr, Condition.chainOr, hflat .or a b c ha hb hc,
        toSQL_logical_three]
    apply String.ext
    simp [LogicalOperator.str]
  · intro a b c ha hb hc
    have hor : b.chainOr c = .logical .or [b, c] := by
      rw [Condition.chainOr]
      unfold chainWith
      rw [flattenConditions_eq, spliceIf_of_not b .or hb, spliceIf_of_not c .or hc]
      rfl
    have hnested : (Condition.logical .or [b, c]).isLogicalWith .and = false := rfl
    rw [Condition.chainAnd, hor]
    show (chainWith a (.logical .or [b, c]) .and).toSQL = _
    unfold chainWith
    rw [flattenConditions_eq, spliceIf_of_not a .and ha,
        spliceIf_of_not (.logical .or [b, c]) .and hnested]
    show (Condition.logical .and [a, .logical .or [b, c]]).toSQL = _
    rw [toSQL_logical_two, toSQL_logical_two]
    apply String.ext
    simp [LogicalOperator.str]

/-- C2 witness: flattening at three concrete comparison conditions. -/
theorem chain_flattening_witness :
    (((Condition.comparison "a" .eq (.vNum 1)).chainAnd
        (Condition.comparison "b" .eq (.vNum 2))).chainAnd
        (Condition.comparison "c" .eq (.vNum 3))).toSQL
      = "(" ++ (Condition.comparison "a" .eq (.vNum 1)).toSQL ++ " AND "
          ++ (Condition.comparison "b" .eq (.vNum 2)).toSQL ++ " AND "
          ++ (Condition.comparison "c" .eq (.vNum 3)).toSQL ++ ")" :=
  (chain_flattening.2.1 (Condition.comparison "a" .eq (.vNum 1))
    (Condition.comparison "b" .eq (.vNum 2))
    (Condition.comparison "c" .eq (.vNum 3)) rfl rfl rfl).1

/-! ## Claim C9: membership over a literal array -/

/-- C9: an in-condition over a literal array renders as the escaped column,
IN, and the parenthesized comma-joined escaped elements; the empty array
renders as IN () with nothing between the parentheses, with no special
case. -/
theorem membershipIn_render :
    (∀ col values, (Condition.membershipIn col values).toSQL
      = escapeIdentifier col ++ " IN ("
          ++ String.intercalate ", " (values.map escapeValue) ++ ")") ∧
    (∀ col, (Condition.membershipIn col []).toSQL = escapeIdentifier col ++ " IN ()") := by
  constructor
  · intro col values
    rw [Condition.toSQL, escapeValueList_eq_map]
  · intro col
    rw [Condition.toSQL]
    apply String.ext
    simp [escapeValueList, String.intercalate]

/-! ## Claim C10: dotted column references are quoted whole -/

/-- C10: a qualified column reference containing a dot fails the unquoted
identifier pattern, so the whole reference renders as a single double-quoted
identifier; the generated comparison never contains a bare alias.column
text. -/
theorem dotted_column_reference_quoted :
    (∀ col op v, strIncludes col '.' = true →
      (createComparison col op v).toSQL
        = ("\"" ++ doubleQuotes col ++ "\"") ++ " " ++ op.symbol ++ " " ++ escapeValue v) ∧
    (createComparison "users.id" .eq (.vNum 1)).toSQL = "\"users.id\" = 1" := by
  constructor
  · intro col op v h
    have hbad : col.data.all isIdentChar = false := by
      rw [List.all_eq_false]
      obtain ⟨x, hx, he⟩ := List.any_eq_true.mp h
      have hxdot : x = '.' := by simpa using he
      subst hxdot
      exact ⟨'.', hx, by decide⟩
    rw [createComparison, Condition.toSQL, escapeIdentifier_of_bad col hbad]
  · rfl

/-- C10 witness: the general statement at the concrete dotted reference. -/
theorem dotted_column_reference_quoted_witness :
    (createComparison "users.id" .eq (.vNum 1)).toSQL
      = ("\"" ++ doubleQuotes "users.id" ++ "\"") ++ " "
          ++ ComparisonOperator.eq.symbol ++ " " ++ escapeValue (.vNum 1) :=
  dotted_column_reference_quoted.1 "users.id" .eq (.vNum 1) rfl

/-! ## Claim C6: auto-generated names and required fields -/

/-- C6: when no explicit name is given, the definition carries the sanitized
auto-generated name table_operation_policy, or
table_operation_restrictive_policy for a restrictive policy; and requesting
SQL generation while the table or the operation is unset yields a
construction error with no SQL. -/
theorem autoName_and_required_fields :
    (∀ (s : PolicyBuilderState) (t : String) (op : PolicyOperation),
      s.table = some t → s.operation = some op → s.ptype ≠ some .RESTRICTIVE →
      generatePolicyName s = .ok (t ++ "_" ++ op.lower ++ "_policy")) ∧
    (∀ (s : PolicyBuilderState) (t : String) (op : PolicyOperation),
      s.table = some t → s.operation = some op → s.ptype = some .RESTRICTIVE →
      generatePolicyName s = .ok (t ++ "_" ++ op.lower ++ "_restrictive_policy")) ∧
    (∀ (s : PolicyBuilderState) (t : String) (op : PolicyOperation),
      s.name = none → s.table = some t → s.operation = some op →
      (toDefinition s).map PolicyDefinition.name
        = sanitizePolicyName (t ++ "_" ++ op.lower
            ++ (if s.ptype = some .RESTRICTIVE then "_restrictive_policy" else "_policy"))) ∧
    (∀ (s : PolicyBuilderState) (b : Bool), s.table = none →
      policyToSQL s b = .error "Policy table is required") ∧
    (∀ (s : PolicyBuilderState) (t : String) (b : Bool),
      s.table = some t → s.operation = none →
      policyToSQL s b = .error "Policy operation is required") := by
  refine ⟨?_, ?_, ?_, ?_, ?_⟩
  · intro s t op ht ho hr
    simp only [generatePolicyName, ht, ho]
    rw [if_neg hr]
  · intro s t op ht ho hr
    simp only [generatePolicyName, ht, ho]
    rw [if_pos hr]
  · intro s t op hn ht ho
    have hgen : generatePolicyName s
        = .ok (t ++ "_" ++ op.lower
            ++ (if s.ptype = some .RESTRICTIVE then "_restrictive_policy" else "_policy")) := by
      simp only [generatePolicyName, ht, ho]
      by_cases hr : s.ptype = some .RESTRICTIVE
      · rw [if_pos hr, if_pos hr]
      · rw [if_neg hr, if_neg hr]
    simp only [toDefinition, ht, ho, hn, hgen]
    cases hsan : sanitizePolicyName (t ++ "_" ++ op.lower
        ++ (if s.ptype = some .RESTRICTIVE then "_restrictive_policy" else "_policy")) with
    | error e => simp [hsan, Except.map]
    | ok nm => simp [hsan, Except.map]
  · intro s b ht
    simp only [policyToSQL, toDefinition, ht]
  · intro s t b ht ho
    simp only [policyToSQL, toDefinition, ht, ho]

/-- C6 witness: a nameless SELECT policy on documents auto-names itself, and
builders missing the table or the operation error out. -/
theorem autoName_and_required_fields_witness :
    (toDefinition { table := some "documents", operation := some .SELECT }).map
        PolicyDefinition.name
      = sanitizePolicyName ("documents" ++ "_" ++ PolicyOperation.SELECT.lower
          ++ (if ({ table := some "documents", operation := some .SELECT } :
                PolicyBuilderState).ptype = some .RESTRICTIVE
              then "_restrictive_policy" else "_policy")) ∧
    policyToSQL { operation := some .SELECT } false = .error "Policy table is required" ∧
    policyToSQL { table := some "documents" } false = .error "Policy operation is required" :=
  ⟨autoName_and_required_fields.2.2.1 { table := some "documents", operation := some .SELECT }
      "documents" .SELECT rfl rfl rfl,
   autoName_and_required_fields.2.2.2.1 { operation := some .SELECT } false rfl,
   autoName_and_required_fields.2.2.2.2 { table := some "documents" } "documents" false rfl rfl⟩

/-! ## Claim C3: fail-fast reference validation -/

/-- C3: attaching a WHERE condition that references a qualified alias
outside the available set (the from-alias-or-name plus every already-added
join alias-or-name) errors immediately naming the missing aliases;
unqualified column references are never flagged; a join ON-condition may
reference the alias-or-name of the join target being added, while any other
unavailable alias errors at join time. -/
theorem where_join_validation :
    (∀ (b : SubqueryBuilder) (cond : Condition),
      detectMissingJoins cond (getAvailableTables b.fromTable b.fromAlias b.joins) = [] →
      b.whereCall cond = .ok { b with whereCond := some cond }) ∧
    (∀ (b : SubqueryBuilder) (cond : Condition) (m : String) (ms : List String),
      detectMissingJoins cond (getAvailableTables b.fromTable b.fromAlias b.joins)
          = m :: ms →
      b.whereCall cond = .error ("Missing join(s) for table(s): "
        ++ String.intercalate ", " (m :: ms)
        ++ ". Add a join using .join(\x27" ++ m ++ "\x27, ...) before calling .where()")) ∧
    (∀ (b : SubqueryBuilder) (col : String) (op : ComparisonOperator) (v : Value),
      strIncludes col '.' = false → valueAliases v = [] →
      b.whereCall (.comparison col op v)
        = .ok { b with whereCond := some (.comparison col op v) }) ∧
    (∀ (b : SubqueryBuilder) (table : String) (onC : Condition) (ty : Option JoinType)
        (al : Option String),
      (detectMissingJoins onC (getAvailableTables b.fromTable b.fromAlias b.joins)).filter
          (fun x => x != al.getD table) = [] →
      b.joinCall table onC ty al = .ok { b with joins := b.joins
        ++ [{ table := table, jAlias := al, onCond := onC, jtype := ty.getD .inner }] }) ∧
    (∀ (b : SubqueryBuilder) (table : String) (onC : Condition) (ty : Option JoinType)
        (al : Option String) (m : String) (ms : List String),
      (detectMissingJoins onC (getAvailableTables b.fromTable b.fromAlias b.joins)).filter
          (fun x => x != al.getD table) = m :: ms →
      b.joinCall table onC ty al
        = .error ("Join condition references unavailable table(s): "
            ++ String.intercalate ", " (m :: ms))) := by
  have hwok : ∀ (b : SubqueryBuilder) (cond : Condition),
      detectMissingJoins cond (getAvailableTables b.fromTable b.fromAlias b.joins) = [] →
      b.whereCall cond = .ok { b with whereCond := some cond } := by
    intro b cond h
    simp [SubqueryBuilder.whereCall, validateTableReferences, h]
  refine ⟨hwok, ?_, ?_, ?_, ?_⟩
  · intro b cond m ms h
    simp [SubqueryBuilder.whereCall, validateTableReferences, h]
  · intro b col op v hcol hv
    apply hwok
    simp [detectMissingJoins, collectQualifiedAliases, dottedAliasOf, hcol, hv]
  · intro b table onC ty al h
    cases hm : detectMissingJoins onC (getAvailableTables b.fromTable b.fromAlias b.joins) with
    | nil => simp [SubqueryBuilder.joinCall, validateTableReferences, hm]
    | cons x xs =>
      rw [hm] at h
      simp [SubqueryBuilder.joinCall, validateTableReferences, hm, h]
  · intro b table onC ty al m ms h
    have hm : detectMissingJoins onC
        (getAvailableTables b.fromTable b.fromAlias b.joins) ≠ [] := by
      intro he
      rw [he] at h
      exact List.noConfusion h
    simp [SubqueryBuilder.joinCall, validateTableReferences, hm, h]

/-- C3 witness: the spec dangling-reference scenario and the join-target
allowance, from `where_join_validation` at concrete builders. -/
theorem where_join_validation_witness :
    (fromBuilder "projects" none).whereCall
        (.comparison "members.user_id" .eq (.vContext "auth.uid()"))
      = .error ("Missing join(s) for table(s): " ++ String.intercalate ", " ["members"]
          ++ ". Add a join using .join(\x27" ++ "members"
          ++ "\x27, ...) before calling .where()") ∧
    (fromBuilder "projects" (some "p")).joinCall "project_members"
        (.comparison "p.id" .eq (.vStr "pm.project_id")) (some .inner) (some "pm")
      = .ok { fromBuilder "projects" (some "p") with
          joins := (fromBuilder "projects" (some "p")).joins
            ++ [{ table := "project_members", jAlias := some "pm",
                  onCond := .comparison "p.id" .eq (.vStr "pm.project_id"),
                  jtype := (some JoinType.inner).getD .inner }] } :=
  ⟨where_join_validation.2.1 (fromBuilder "projects" none)
      (.comparison "members.user_id" .eq (.vContext "auth.uid()")) "members" [] (by decide),
   where_join_validation.2.2.2.1 (fromBuilder "projects" (some "p")) "project_members"
      (.comparison "p.id" .eq (.vStr "pm.project_id")) (some .inner) (some "pm") (by decide)⟩

/-! ## Claim C8: multiple joins validate, only the first renders -/

/-- C8: every added join participates in reference validation — its
alias-or-name is in the available set used by later where and join calls and
is never reported missing — but the rendered subquery of a builder with
several joins is identical to that of the builder holding only the first
join: joins after the first are silently omitted from the SQL. -/
theorem multi_join_validate_render :
    (∀ (b : SubqueryBuilder) (j : SubqueryJoin), j ∈ b.joins →
      (j.jAlias.getD j.table) ∈ getAvailableTables b.fromTable b.fromAlias b.joins) ∧
    (∀ (b : SubqueryBuilder) (cond : Condition) (j : SubqueryJoin), j ∈ b.joins →
      (j.jAlias.getD j.table) ∉
        detectMissingJoins cond (getAvailableTables b.fromTable b.fromAlias b.joins)) ∧
    (∀ (b : SubqueryBuilder) (j : SubqueryJoin) (js : List SubqueryJoin),
      b.joins = j :: js →
      b.toSubquery = SubqueryBuilder.toSubquery { b with joins := [j] } ∧
      subqueryToSQL b.toSubquery
        = subqueryToSQL (SubqueryBuilder.toSubquery { b with joins := [j] })) := by
  have hmem : ∀ (b : SubqueryBuilder) (j : SubqueryJoin), j ∈ b.joins →
      (j.jAlias.getD j.table) ∈ getAvailableTables b.fromTable b.fromAlias b.joins := by
    intro b j hj
    unfold getAvailableTables
    exact List.mem_cons_of_mem _ (List.mem_map_of_mem (fun j => j.jAlias.getD j.table) hj)
  have hsub : ∀ (b : SubqueryBuilder) (j : SubqueryJoin) (js : List SubqueryJoin),
      b.joins = j :: js →
      b.toSubquery = SubqueryBuilder.toSubquery { b with joins := [j] } := by
    intro b j js hj
    simp [SubqueryBuilder.toSubquery, hj]
  refine ⟨hmem, ?_, ?_⟩
  · intro b cond j hj hin
    have hpred := (List.mem_filter.mp hin).2
    simp only [Bool.not_eq_true'] at hpred
    simp at hpred
    exact hpred (hmem b j hj)
  · intro b j js hj
    exact ⟨hsub b j js hj, congrArg subqueryToSQL (hsub b j js hj)⟩

/-- C8 witness: a builder with two joins renders only the first. -/
theorem multi_join_validate_render_witness :
    ({ fromTable := "projects", fromAlias := some "p",
       joins := [{ table := "members", jAlias := some "m",
                   onCond := .comparison "p.id" .eq (.vStr "m.project_id"),
                   jtype := .inner },
                 { table := "orgs", jAlias := some "o",
                   onCond := .comparison "p.org_id" .eq (.vStr "o.id"),
                   jtype := .inner }] } : SubqueryBuilder).toSubquery
      = SubqueryBuilder.toSubquery
          { ({ fromTable := "projects", fromAlias := some "p",
               joins := [{ table := "members", jAlias := some "m",
                           onCond := .comparison "p.id" .eq (.vStr "m.project_id"),
                           jtype := .inner },
                         { table := "orgs", jAlias := some "o",
                           onCond := .comparison "p.org_id" .eq (.vStr "o.id"),
                           jtype := .inner }] } : SubqueryBuilder) with
            joins := [{ table := "members", jAlias := some "m",
                        onCond := .comparison "p.id" .eq (.vStr "m.project_id"),
                        jtype := .inner }] } :=
  (multi_join_validate_render.2.2 _
    { table := "members", jAlias := some "m",
      onCond := .comparison "p.id" .eq (.vStr "m.project_id"), jtype := .inner }
    [{ table := "orgs", jAlias := some "o",
       onCond := .comparison "p.org_id" .eq (.vStr "o.id"), jtype := .inner }] rfl).1

/-! ## Claim C7: index extraction -/

/-- Value test used by claim C7: a string value containing a dot, which the
extractor treats as a column reference rather than a constant. -/
def isDottedStringValue : Value → Bool
  | .vStr s => strIncludes s '.'
  | _ => false

theorem identAll_append (a b : String) (ha : a.data.all isIdentChar = true)
    (hb : b.data.all isIdentChar = true) : (a ++ b).data.all isIdentChar = true := by
  rw [show (a ++ b).data = a.data ++ b.data from by simp]
  simp only [List.all_append, ha, hb, Bool.and_self]

/-- C7: an eq comparison against a context value or any render-to-SQL
capable value collects exactly the pair (table, column), an eq comparison
against a constant literal collects nothing, alias.column references resolve
through the alias map, collected pairs are de-duplicated, and one
CREATE INDEX IF NOT EXISTS idx_table_column ON table (column); statement is
emitted per pair. -/
theorem index_extraction :
    (∀ (t col : String) (v : Value), shouldIndexValue v = true →
      strIncludes col '.' = false →
      extractIndexableColumns (some (.comparison col .eq v)) t = [(t, [col])]) ∧
    (∀ (t col : String) (v : Value), shouldIndexValue v = false →
      isDottedStringValue v = false →
      extractIndexableColumns (some (.comparison col .eq v)) t = []) ∧
    (∀ (aliasMap : List (String × String)) (ref currentTable : String),
      strIncludes ref '.' = true →
      parseColumnReference ref currentTable aliasMap
        = (lookupAlias aliasMap ((splitDot ref).getD 0 ""), (splitDot ref).getD 1 "")) ∧
    (∀ (k v : String) (rest : List (String × String)),
      lookupAlias ((k, v) :: rest) k = v) ∧
    (∀ (tc : List (String × List String)) (t c : String),
      tcAdd (tcAdd tc t c) t c = tcAdd tc t c) ∧
    (∀ pairs, (generateIndexSQL pairs).length = (pairs.map (fun p => p.2.length)).sum) ∧
    (∀ t c : String, t.data.all isIdentChar = true → c.data.all isIdentChar = true →
      generateIndexSQL [(t, [c])]
        = ["CREATE INDEX IF NOT EXISTS " ++ ("idx_" ++ t ++ "_" ++ c)
            ++ " ON " ++ t ++ " (" ++ c ++ ");"]) := by
  refine ⟨?_, ?_, ?_, ?_, ?_, ?_, ?_⟩
  · intro t col v hv hcol
    simp [extractIndexableColumns, processCondition, processComparisonCondition, hv,
      parseColumnReference, hcol, accAdd, tcAdd, lookupAlias, List.find?]
  · intro t col v hv hdot
    cases v <;>
      simp_all [extractIndexableColumns, processCondition, processComparisonCondition,
        shouldIndexValue, isDottedStringValue]
  · intro aliasMap ref currentTable h
    simp [parseColumnReference, h]
  · intro k v rest
    simp [lookupAlias, List.find?]
  · intro tc t c
    induction tc with
    | nil => simp [tcAdd]
    | cons p rest ih =>
      obtain ⟨t', cs⟩ := p
      by_cases ht : t' = t
      · subst ht
        have hmem : c ∈ (if c ∈ cs then cs else cs ++ [c]) := by
          by_cases hm : c ∈ cs
          · simp [hm]
          · simp [hm]
        simp [tcAdd, hmem]
      · simp [tcAdd, ht, ih]
  · intro pairs
    induction pairs with
    | nil => simp [generateIndexSQL]
    | cons p rest ih =>
      have hcons : generateIndexSQL (p :: rest) =
          (p.2.map fun c => "CREATE INDEX IF NOT EXISTS "
            ++ escapeIdentifier ("idx_" ++ p.1 ++ "_" ++ c)
            ++ " ON " ++ escapeIdentifier p.1 ++ " (" ++ escapeIdentifier c ++ ");")
          ++ generateIndexSQL rest := by
        simp [generateIndexSQL]
      rw [hcons, List.length_append, List.length_map, ih, List.map_cons, List.sum_cons]
  · intro t c ht hc
    have hidx : ("idx_" ++ t ++ "_" ++ c).data.all isIdentChar = true :=
      identAll_append _ _ (identAll_append _ _ (identAll_append _ _ (by decide) ht) (by decide)) hc
    simp [generateIndexSQL, escapeIdentifier_of_ident _ hidx,
      escapeIdentifier_of_ident _ ht, escapeIdentifier_of_ident _ hc]

/-- C7 witness: the spec examples — an ownership filter yields exactly the
(documents, user_id) pair and its index statement, a constant filter yields
none. -/
theorem index_extraction_witness :
    extractIndexableColumns
        (some (.comparison "user_id" .eq (.vContext "auth.uid()"))) "documents"
      = [("documents", ["user_id"])] ∧
    extractIndexableColumns
        (some (.comparison "status" .eq (.vStr "active"))) "documents" = [] ∧
    generateIndexSQL [("documents", ["user_id"])]
      = ["CREATE INDEX IF NOT EXISTS " ++ ("idx_" ++ "documents" ++ "_" ++ "user_id")
          ++ " ON " ++ "documents" ++ " (" ++ "user_id" ++ ");"] :=
  ⟨index_extraction.1 "documents" "user_id" (.vContext "auth.uid()") rfl rfl,
   index_extraction.2.1 "documents" "status" (.vStr "active") rfl rfl,
   index_extraction.2.2.2.2.2.2 "documents" "user_id" (by decide) (by decide)⟩

end Rowguard
